import Mathlib

/-!
Verification of the `export.py` command-line tool of vector-io.

The script is embedded shallowly:

* A Python `args` dict (produced by `vars(parser.parse_args())`) becomes an
  association list `Args` from argument names to `PyVal` values, where
  `PyVal.none` models Python `None`.
* Every observable action of the script (a prompt shown via `input`, a masked
  prompt via `getpass`, a `print`, or a call into one of the three backend
  adapter objects) becomes an `Event`; each embedded function returns the
  list of events it emits, in program order.
* User responses to prompts are supplied by a script `inputs : List String`
  consumed front to back (an exhausted script yields the empty string).
* The process environment (`os.getenv`) and the names the three adapters
  enumerate are packaged in a `World`.
-/

set_option linter.unusedVariables false

namespace ExportPy

/-- The values a Python `args` dict holds in this script: `None`, strings
from argparse/`input`/`getpass`, and booleans from `type=bool` or the
cross-reference conversion. -/
inductive PyVal where
  | none : PyVal
  | str : String → PyVal
  | bool : Bool → PyVal
deriving DecidableEq, Repr

/-- The `args` dict: an insertion-ordered association list, first match wins
on lookup (keys are unique in every dict the script builds). -/
abbrev Args := List (String × PyVal)

/-- Observable actions of the script, in program order. -/
inductive Event where
  | inputPrompt : String → String → Event
  | getpassPrompt : String → String → Event
  | printStr : String → Event
  | printArgs : Args → Event
  | getAllIndexNames : Event
  | getAllClassNames : Event
  | getAllCollectionNames : Event
  | getDataPinecone : PyVal → Event
  | getDataWeaviate : PyVal → PyVal → Event
  | getDataQdrant : PyVal → Event
deriving DecidableEq, Repr

/-- How one invocation of `main` ends. -/
inductive Outcome where
  | success : Outcome
  | parseError : String → Outcome
  | outOfFuel : Outcome
deriving DecidableEq, Repr

/-- The ambient world: `os.getenv`, and what each adapter's enumeration
method returns. -/
structure World where
  env : String → Option String
  indexNames : List String
  classNames : List String
  collectionNames : List String

/-- Python dict assignment `args[n] = v`: replace the first binding of `n`
in place, or append a fresh one. -/
def setKey : Args → String → PyVal → Args
  | [], n, v => [(n, v)]
  | (k, w) :: rest, n, v =>
    if k = n then (k, v) :: rest else (k, w) :: setKey rest n v

/-- The test `arg_name not in args or args[arg_name] is None`. -/
def argMissing (args : Args) (n : String) : Bool :=
  match List.lookup n args with
  | Option.none => true
  | some PyVal.none => true
  | some (PyVal.str _) => false
  | some (PyVal.bool _) => false

/-- `set_arg_from_input(args, arg_name, prompt)`: prompt the user and store
the response only when the argument is absent or `None`. -/
def set_arg_from_input (args : Args) (n p : String) (inputs : List String) :
    Args × List String × List Event :=
  if argMissing args n then
    (setKey args n (PyVal.str (inputs.headD "")), inputs.tail,
      [Event.inputPrompt p (inputs.headD "")])
  else
    (args, inputs, [])

/-- `set_arg_from_password(args, arg_name, prompt, env_var_name)`: the
environment variable wins unconditionally; otherwise fall back to a masked
`getpass` prompt when the argument is absent or `None`. -/
def set_arg_from_password (env : String → Option String) (args : Args)
    (n p envVar : String) (inputs : List String) :
    Args × List String × List Event :=
  match env envVar with
  | some v => (setKey args n (PyVal.str v), inputs, [])
  | Option.none =>
    if argMissing args n then
      (setKey args n (PyVal.str (inputs.headD "")), inputs.tail,
        [Event.getpassPrompt p (inputs.headD "")])
    else
      (args, inputs, [])

theorem lookup_setKey_self (a : Args) (n : String) (v : PyVal) :
    List.lookup n (setKey a n v) = some v := by
  induction a with
  | nil => simp [setKey, List.lookup]
  | cons hd tl ih =>
    obtain ⟨k, w⟩ := hd
    by_cases h : k = n
    · simp [setKey, h, List.lookup]
    · have hnk : (n == k) = false := beq_eq_false_iff_ne.mpr (Ne.symm h)
      simp [setKey, h, List.lookup, hnk, ih]

theorem lookup_setKey_ne (a : Args) (n k : String) (v : PyVal) (h : k ≠ n) :
    List.lookup k (setKey a n v) = List.lookup k a := by
  have hkn : (k == n) = false := beq_eq_false_iff_ne.mpr h
  induction a with
  | nil => simp [setKey, List.lookup, hkn]
  | cons hd tl ih =>
    obtain ⟨k2, w⟩ := hd
    by_cases h2 : k2 = n
    · subst h2
      simp [setKey, List.lookup, hkn]
    · simp [setKey, h2, List.lookup, ih]

theorem argMissing_false_of_lookup (a : Args) (n : String) (v : PyVal)
    (hv : v ≠ PyVal.none) (h : List.lookup n a = some v) :
    argMissing a n = false := by
  unfold argMissing
  rw [h]
  cases v with
  | none => exact absurd rfl hv
  | str s => rfl
  | bool b => rfl

/-! ### Prompt strings of the script -/

def pineconeEnvPrompt : String := "Enter the environment of Pinecone instance: "

def pineconeIndexPrompt : String :=
  "Enter the name of index to export, or type all to get all indexes: "

def modelPrompt : String := "Enter the name of model used:"

def pineconeKeyPrompt : String := "Enter your Pinecone API key: "

def weaviateUrlPrompt : String := "Enter the location of Weaviate instance: "

def weaviateClassPrompt : String :=
  "Enter the name of class to export, or type all to export all classes: "

def crossrefsPrompt : String := "Include cross references, enter Y or N: "

def qdrantUrlPrompt : String := "Enter the location of Qdrant instance: "

def qdrantCollectionPrompt : String :=
  "Enter the name of collection to export, or type all to export all collections: "

def vdbPrompt : String := "Enter the name of vector database to export: "

/-! ### The three export functions -/

/-- The four argument-collection calls at the top of `export_pinecone`,
in program order. -/
def pinecone_setup (env : String → Option String) (args : Args)
    (inputs : List String) : Args × List String × List Event :=
  let s1 := set_arg_from_input args "environment" pineconeEnvPrompt inputs
  let s2 := set_arg_from_input s1.1 "index" pineconeIndexPrompt s1.2.1
  let s3 := set_arg_from_input s2.1 "model_name" modelPrompt s2.2.1
  let s4 := set_arg_from_password env s3.1 "pinecone_api_key" pineconeKeyPrompt
    "PINECONE_API_KEY" s3.2.1
  (s4.1, s4.2.1, s1.2.2 ++ s2.2.2 ++ s3.2.2 ++ s4.2.2)

/-- `export_pinecone(args)`: collect arguments, `print(args)`, then export
every index when `args["index"] == "all"` and the single named index
otherwise. -/
def export_pinecone (w : World) (args : Args) (inputs : List String) :
    Args × List String × List Event :=
  let s := pinecone_setup w.env args inputs
  (s.1, s.2.1,
    s.2.2 ++ Event.printArgs s.1 ::
      (if List.lookup "index" s.1 = some (PyVal.str "all") then
        Event.getAllIndexNames ::
          w.indexNames.map (fun n => Event.getDataPinecone (PyVal.str n))
      else
        [Event.getDataPinecone ((List.lookup "index" s.1).getD PyVal.none)]))

/-- The three argument-collection calls at the top of `export_weaviate`. -/
def weaviate_setup (args : Args) (inputs : List String) :
    Args × List String × List Event :=
  let s1 := set_arg_from_input args "url" weaviateUrlPrompt inputs
  let s2 := set_arg_from_input s1.1 "class_name" weaviateClassPrompt s1.2.1
  let s3 := set_arg_from_input s2.1 "include_crossrefs" crossrefsPrompt s2.2.1
  (s3.1, s3.2.1, s1.2.2 ++ s2.2.2 ++ s3.2.2)

/-- The conversion `args["include_crossrefs"] = (args["include_crossrefs"] == "Y")`
written as the script's if/else: `True` exactly when the stored value is the
string `"Y"`, `False` for every other value (including the booleans argparse
produces for the `-i` flag). -/
def weaviate_convert (args : Args) : Args :=
  if List.lookup "include_crossrefs" args = some (PyVal.str "Y") then
    setKey args "include_crossrefs" (PyVal.bool true)
  else
    setKey args "include_crossrefs" (PyVal.bool false)

/-- `export_weaviate(args)`: collect arguments, normalize the cross-reference
flag, then export all classes or the single named class, passing
`args["include_crossrefs"]` to every `get_data` call. -/
def export_weaviate (w : World) (args : Args) (inputs : List String) :
    Args × List String × List Event :=
  let s := weaviate_setup args inputs
  let a := weaviate_convert s.1
  let cr := (List.lookup "include_crossrefs" a).getD PyVal.none
  (a, s.2.1,
    s.2.2 ++
      (if List.lookup "class_name" a = some (PyVal.str "all") then
        Event.getAllClassNames ::
          w.classNames.map (fun n => Event.getDataWeaviate (PyVal.str n) cr)
      else
        [Event.getDataWeaviate ((List.lookup "class_name" a).getD PyVal.none) cr]))

/-- The two argument-collection calls at the top of `export_qdrant`. -/
def qdrant_setup (args : Args) (inputs : List String) :
    Args × List String × List Event :=
  let s1 := set_arg_from_input args "url" qdrantUrlPrompt inputs
  let s2 := set_arg_from_input s1.1 "collection" qdrantCollectionPrompt s1.2.1
  (s2.1, s2.2.1, s1.2.2 ++ s2.2.2)

/-- `export_qdrant(args)`: collect arguments, then export all collections or
the single named collection. -/
def export_qdrant (w : World) (args : Args) (inputs : List String) :
    Args × List String × List Event :=
  let s := qdrant_setup args inputs
  (s.1, s.2.1,
    s.2.2 ++
      (if List.lookup "collection" s.1 = some (PyVal.str "all") then
        Event.getAllCollectionNames ::
          w.collectionNames.map (fun n => Event.getDataQdrant (PyVal.str n))
      else
        [Event.getDataQdrant ((List.lookup "collection" s.1).getD PyVal.none)]))

/-- Events that are calls into a backend adapter (enumeration or
`get_data`), as opposed to prompts and prints. -/
def isAdapterCall : Event → Bool
  | Event.getAllIndexNames => true
  | Event.getAllClassNames => true
  | Event.getAllCollectionNames => true
  | Event.getDataPinecone _ => true
  | Event.getDataWeaviate _ _ => true
  | Event.getDataQdrant _ => true
  | _ => false

/-- The subtrace of adapter calls, in order. -/
def adapterCalls (es : List Event) : List Event :=
  es.filter isAdapterCall

theorem safi_adapter_free (a : Args) (n p : String) (i : List String) :
    (set_arg_from_input a n p i).2.2.filter isAdapterCall = [] := by
  unfold set_arg_from_input
  split <;> simp [isAdapterCall]

theorem safp_adapter_free (env : String → Option String) (a : Args)
    (n p e : String) (i : List String) :
    (set_arg_from_password env a n p e i).2.2.filter isAdapterCall = [] := by
  unfold set_arg_from_password
  split
  · simp
  · split <;> simp [isAdapterCall]

theorem pinecone_setup_adapter_free (env : String → Option String) (a : Args)
    (i : List String) :
    (pinecone_setup env a i).2.2.filter isAdapterCall = [] := by
  unfold pinecone_setup
  simp [List.filter_append, safi_adapter_free, safp_adapter_free]

theorem weaviate_setup_adapter_free (a : Args) (i : List String) :
    (weaviate_setup a i).2.2.filter isAdapterCall = [] := by
  unfold weaviate_setup
  simp [List.filter_append, safi_adapter_free]

theorem qdrant_setup_adapter_free (a : Args) (i : List String) :
    (qdrant_setup a i).2.2.filter isAdapterCall = [] := by
  unfold qdrant_setup
  simp [List.filter_append, safi_adapter_free]

theorem filter_adapter_map_pinecone (l : List String) :
    List.filter isAdapterCall (l.map fun n => Event.getDataPinecone (PyVal.str n)) =
      l.map fun n => Event.getDataPinecone (PyVal.str n) := by
  induction l with
  | nil => rfl
  | cons h t ih => simp [isAdapterCall, ih]

theorem filter_adapter_map_weaviate (l : List String) (cr : PyVal) :
    List.filter isAdapterCall
        (l.map fun n => Event.getDataWeaviate (PyVal.str n) cr) =
      l.map fun n => Event.getDataWeaviate (PyVal.str n) cr := by
  induction l with
  | nil => rfl
  | cons h t ih => simp [isAdapterCall, ih]

theorem filter_adapter_map_qdrant (l : List String) :
    List.filter isAdapterCall (l.map fun n => Event.getDataQdrant (PyVal.str n)) =
      l.map fun n => Event.getDataQdrant (PyVal.str n) := by
  induction l with
  | nil => rfl
  | cons h t ih => simp [isAdapterCall, ih]

/-! ### Claims about the per-backend export functions -/

/-- C1: for every backend, when the selected collection name is the literal
"all", the adapter calls are exactly one enumeration call followed by one
`get_data` call per returned name, in enumeration order, with no sorting,
skipping, or duplication. -/
theorem claim1_export_all_enumeration_order :
    (∀ (w : World) (args : Args) (inputs : List String),
      List.lookup "index" (export_pinecone w args inputs).1 =
          some (PyVal.str "all") →
      adapterCalls (export_pinecone w args inputs).2.2 =
        Event.getAllIndexNames ::
          w.indexNames.map (fun n => Event.getDataPinecone (PyVal.str n)))
    ∧ (∀ (w : World) (args : Args) (inputs : List String),
      List.lookup "class_name" (export_weaviate w args inputs).1 =
          some (PyVal.str "all") →
      adapterCalls (export_weaviate w args inputs).2.2 =
        Event.getAllClassNames ::
          w.classNames.map (fun n => Event.getDataWeaviate (PyVal.str n)
            ((List.lookup "include_crossrefs"
              (export_weaviate w args inputs).1).getD PyVal.none)))
    ∧ (∀ (w : World) (args : Args) (inputs : List String),
      List.lookup "collection" (export_qdrant w args inputs).1 =
          some (PyVal.str "all") →
      adapterCalls (export_qdrant w args inputs).2.2 =
        Event.getAllCollectionNames ::
          w.collectionNames.map (fun n => Event.getDataQdrant (PyVal.str n))) := by
  refine ⟨?_, ?_, ?_⟩
  · intro w args inputs h
    have h2 : List.lookup "index" (pinecone_setup w.env args inputs).1 =
        some (PyVal.str "all") := h
    unfold export_pinecone adapterCalls
    simp only [List.filter_append, pinecone_setup_adapter_free, if_pos h2,
      List.nil_append]
    simp [isAdapterCall, filter_adapter_map_pinecone]
  · intro w args inputs h
    have h2 : List.lookup "class_name" (weaviate_convert (weaviate_setup args inputs).1) =
        some (PyVal.str "all") := h
    unfold export_weaviate adapterCalls
    simp only [List.filter_append, weaviate_setup_adapter_free, if_pos h2,
      List.nil_append]
    simp [isAdapterCall, filter_adapter_map_weaviate]
  · intro w args inputs h
    have h2 : List.lookup "collection" (qdrant_setup args inputs).1 =
        some (PyVal.str "all") := h
    unfold export_qdrant adapterCalls
    simp only [List.filter_append, qdrant_setup_adapter_free, if_pos h2,
      List.nil_append]
    simp [isAdapterCall, filter_adapter_map_qdrant]

/-- Concrete fixture world: the API-key variable is set, and each adapter
enumerates a couple of names. -/
def w0 : World :=
  { env := fun _ => some "sekret"
    indexNames := ["i1", "i2"]
    classNames := ["c1", "c2"]
    collectionNames := ["q1"] }

def pineArgs0 : Args :=
  [("environment", PyVal.str "e"), ("index", PyVal.str "all"),
   ("model_name", PyVal.str "m")]

def weavArgs0 : Args :=
  [("url", PyVal.str "u"), ("class_name", PyVal.str "all"),
   ("include_crossrefs", PyVal.str "Y")]

def qdArgs0 : Args :=
  [("url", PyVal.str "u"), ("collection", PyVal.str "all")]

theorem claim1_witness :
    (adapterCalls (export_pinecone w0 pineArgs0 []).2.2 =
      Event.getAllIndexNames ::
        w0.indexNames.map (fun n => Event.getDataPinecone (PyVal.str n)))
    ∧ (adapterCalls (export_weaviate w0 weavArgs0 []).2.2 =
      Event.getAllClassNames ::
        w0.classNames.map (fun n => Event.getDataWeaviate (PyVal.str n)
          ((List.lookup "include_crossrefs"
            (export_weaviate w0 weavArgs0 []).1).getD PyVal.none)))
    ∧ (adapterCalls (export_qdrant w0 qdArgs0 []).2.2 =
      Event.getAllCollectionNames ::
        w0.collectionNames.map (fun n => Event.getDataQdrant (PyVal.str n))) :=
  ⟨claim1_export_all_enumeration_order.1 w0 pineArgs0 [] (by decide),
   claim1_export_all_enumeration_order.2.1 w0 weavArgs0 [] (by decide),
   claim1_export_all_enumeration_order.2.2 w0 qdArgs0 [] (by decide)⟩

/-- C7: for every backend, when the selected collection name is not the
literal "all", the adapter calls are exactly one `get_data` call with that
name and no enumeration call. -/
theorem claim7_single_collection_direct :
    (∀ (w : World) (args : Args) (inputs : List String) (v : PyVal),
      List.lookup "index" (export_pinecone w args inputs).1 = some v →
      v ≠ PyVal.str "all" →
      adapterCalls (export_pinecone w args inputs).2.2 =
        [Event.getDataPinecone v])
    ∧ (∀ (w : World) (args : Args) (inputs : List String) (v : PyVal),
      List.lookup "class_name" (export_weaviate w args inputs).1 = some v →
      v ≠ PyVal.str "all" →
      adapterCalls (export_weaviate w args inputs).2.2 =
        [Event.getDataWeaviate v
          ((List.lookup "include_crossrefs"
            (export_weaviate w args inputs).1).getD PyVal.none)])
    ∧ (∀ (w : World) (args : Args) (inputs : List String) (v : PyVal),
      List.lookup "collection" (export_qdrant w args inputs).1 = some v →
      v ≠ PyVal.str "all" →
      adapterCalls (export_qdrant w args inputs).2.2 =
        [Event.getDataQdrant v]) := by
  refine ⟨?_, ?_, ?_⟩
  · intro w args inputs v h hv
    have h2 : List.lookup "index" (pinecone_setup w.env args inputs).1 = some v := h
    have hne : ¬ List.lookup "index" (pinecone_setup w.env args inputs).1 =
        some (PyVal.str "all") := by
      rw [h2]
      intro hc
      exact hv (Option.some.inj hc)
    unfold export_pinecone adapterCalls
    simp only [List.filter_append, pinecone_setup_adapter_free,
      List.nil_append, h2]
    rw [if_neg (fun hc => hv (Option.some.inj hc))]
    simp [isAdapterCall]
  · intro w args inputs v h hv
    have h2 : List.lookup "class_name"
        (weaviate_convert (weaviate_setup args inputs).1) = some v := h
    have hne : ¬ List.lookup "class_name"
        (weaviate_convert (weaviate_setup args inputs).1) =
        some (PyVal.str "all") := by
      rw [h2]
      intro hc
      exact hv (Option.some.inj hc)
    unfold export_weaviate adapterCalls
    simp only [List.filter_append, weaviate_setup_adapter_free,
      List.nil_append, h2]
    rw [if_neg (fun hc => hv (Option.some.inj hc))]
    simp [isAdapterCall]
  · intro w args inputs v h hv
    have h2 : List.lookup "collection" (qdrant_setup args inputs).1 = some v := h
    have hne : ¬ List.lookup "collection" (qdrant_setup args inputs).1 =
        some (PyVal.str "all") := by
      rw [h2]
      intro hc
      exact hv (Option.some.inj hc)
    unfold export_qdrant adapterCalls
    simp only [List.filter_append, qdrant_setup_adapter_free,
      List.nil_append, h2]
    rw [if_neg (fun hc => hv (Option.some.inj hc))]
    simp [isAdapterCall]

def pineArgs1 : Args :=
  [("environment", PyVal.str "e"), ("index", PyVal.str "my_index"),
   ("model_name", PyVal.str "m")]

def weavArgs1 : Args :=
  [("url", PyVal.str "u"), ("class_name", PyVal.str "my_class"),
   ("include_crossrefs", PyVal.str "Y")]

def qdArgs1 : Args :=
  [("url", PyVal.str "u"), ("collection", PyVal.str "my_coll")]

theorem claim7_witness :
    (adapterCalls (export_pinecone w0 pineArgs1 []).2.2 =
      [Event.getDataPinecone (PyVal.str "my_index")])
    ∧ (adapterCalls (export_weaviate w0 weavArgs1 []).2.2 =
      [Event.getDataWeaviate (PyVal.str "my_class")
        ((List.lookup "include_crossrefs"
          (export_weaviate w0 weavArgs1 []).1).getD PyVal.none)])
    ∧ (adapterCalls (export_qdrant w0 qdArgs1 []).2.2 =
      [Event.getDataQdrant (PyVal.str "my_coll")]) :=
  ⟨claim7_single_collection_direct.1 w0 pineArgs1 [] (PyVal.str "my_index")
      (by decide) (by decide),
   claim7_single_collection_direct.2.1 w0 weavArgs1 [] (PyVal.str "my_class")
      (by decide) (by decide),
   claim7_single_collection_direct.2.2 w0 qdArgs1 [] (PyVal.str "my_coll")
      (by decide) (by decide)⟩

theorem safp_fst_env_set (env : String → Option String) (a : Args)
    (n p e : String) (i : List String) (v : String) (h : env e = some v) :
    (set_arg_from_password env a n p e i).1 = setKey a n (PyVal.str v) := by
  unfold set_arg_from_password
  rw [h]

theorem lookup_pinecone_setup_key (env : String → Option String) (a : Args)
    (i : List String) (v : String) (h : env "PINECONE_API_KEY" = some v) :
    List.lookup "pinecone_api_key" (pinecone_setup env a i).1 =
      some (PyVal.str v) := by
  unfold pinecone_setup
  dsimp only
  rw [safp_fst_env_set _ _ _ _ _ _ _ h]
  exact lookup_setKey_self _ _ _

theorem safp_key_present (env : String → Option String) (a : Args)
    (n p e : String) (i : List String) :
    argMissing (set_arg_from_password env a n p e i).1 n = false := by
  unfold set_arg_from_password
  cases he : env e with
  | some v =>
    exact argMissing_false_of_lookup _ _ _
      (fun hc => PyVal.noConfusion hc) (lookup_setKey_self _ _ _)
  | none =>
    dsimp only
    cases hm : argMissing a n with
    | true =>
      exact argMissing_false_of_lookup _ _ _
        (fun hc => PyVal.noConfusion hc) (lookup_setKey_self _ _ _)
    | false =>
      exact hm

theorem printArgs_mem_pinecone (w : World) (args : Args)
    (inputs : List String) :
    Event.printArgs (pinecone_setup w.env args inputs).1 ∈
      (export_pinecone w args inputs).2.2 := by
  unfold export_pinecone
  dsimp only
  exact List.mem_append_right _ (List.mem_cons_self _ _)

/-- C10: every pinecone invocation prints the whole args mapping after
credential collection, with the `pinecone_api_key` entry present and
non-`None`; when the key came from the environment variable, the printed
entry is exactly that secret in cleartext. -/
theorem claim10_api_key_printed (w : World) (args : Args)
    (inputs : List String) :
    (∃ a, Event.printArgs a ∈ (export_pinecone w args inputs).2.2 ∧
      argMissing a "pinecone_api_key" = false)
    ∧ (∀ s, w.env "PINECONE_API_KEY" = some s →
      ∃ a, Event.printArgs a ∈ (export_pinecone w args inputs).2.2 ∧
        List.lookup "pinecone_api_key" a = some (PyVal.str s)) := by
  constructor
  · refine ⟨(pinecone_setup w.env args inputs).1,
      printArgs_mem_pinecone w args inputs, ?_⟩
    unfold pinecone_setup
    dsimp only
    exact safp_key_present w.env _ _ _ _ _
  · intro s h
    exact ⟨(pinecone_setup w.env args inputs).1,
      printArgs_mem_pinecone w args inputs,
      lookup_pinecone_setup_key w.env args inputs s h⟩

theorem claim10_witness :
    (∃ a, Event.printArgs a ∈ (export_pinecone w0 pineArgs0 []).2.2 ∧
      argMissing a "pinecone_api_key" = false)
    ∧ (∃ a, Event.printArgs a ∈ (export_pinecone w0 pineArgs0 []).2.2 ∧
      List.lookup "pinecone_api_key" a = some (PyVal.str "sekret")) :=
  ⟨(claim10_api_key_printed w0 pineArgs0 []).1,
   (claim10_api_key_printed w0 pineArgs0 []).2 "sekret" rfl⟩

/-- C4: the secret argument is taken from the environment variable when it
is set (and then no prompt of any kind fires); the masked `getpass` prompt
fires only when the variable is unset and the argument is absent or `None`. -/
theorem claim4_secret_env_first (env : String → Option String) (args : Args)
    (inputs : List String) :
    (∀ v, env "PINECONE_API_KEY" = some v →
      List.lookup "pinecone_api_key"
          (set_arg_from_password env args "pinecone_api_key" pineconeKeyPrompt
            "PINECONE_API_KEY" inputs).1 = some (PyVal.str v) ∧
      (set_arg_from_password env args "pinecone_api_key" pineconeKeyPrompt
          "PINECONE_API_KEY" inputs).2.2 = [])
    ∧ ((set_arg_from_password env args "pinecone_api_key" pineconeKeyPrompt
          "PINECONE_API_KEY" inputs).2.2 ≠ [] →
        env "PINECONE_API_KEY" = Option.none ∧
        argMissing args "pinecone_api_key" = true ∧
        (set_arg_from_password env args "pinecone_api_key" pineconeKeyPrompt
            "PINECONE_API_KEY" inputs).2.2 =
          [Event.getpassPrompt pineconeKeyPrompt (inputs.headD "")]) := by
  constructor
  · intro v h
    unfold set_arg_from_password
    rw [h]
    exact ⟨lookup_setKey_self _ _ _, rfl⟩
  · intro hne
    unfold set_arg_from_password at hne ⊢
    cases henv : env "PINECONE_API_KEY" with
    | some v => rw [henv] at hne; exact absurd rfl hne
    | none =>
      rw [henv] at hne
      cases hm : argMissing args "pinecone_api_key" with
      | false => rw [hm] at hne; simp at hne
      | true => exact ⟨rfl, rfl, rfl⟩

def env0 : String → Option String := fun _ => Option.none

theorem claim4_witness :
    (List.lookup "pinecone_api_key"
        (set_arg_from_password w0.env [] "pinecone_api_key" pineconeKeyPrompt
          "PINECONE_API_KEY" []).1 = some (PyVal.str "sekret") ∧
      (set_arg_from_password w0.env [] "pinecone_api_key" pineconeKeyPrompt
          "PINECONE_API_KEY" []).2.2 = [])
    ∧ (env0 "PINECONE_API_KEY" = Option.none ∧
        argMissing [] "pinecone_api_key" = true ∧
        (set_arg_from_password env0 [] "pinecone_api_key" pineconeKeyPrompt
            "PINECONE_API_KEY" ["typed"]).2.2 =
          [Event.getpassPrompt pineconeKeyPrompt (["typed"].headD "")]) :=
  ⟨(claim4_secret_env_first w0.env [] []).1 "sekret" rfl,
   (claim4_secret_env_first env0 [] ["typed"]).2 (by decide)⟩

/-- C6: `set_arg_from_input` leaves a dict holding a non-`None` value for
the argument entirely unchanged and shows no prompt; when the argument is
absent or `None` it shows exactly one prompt and stores the response,
touching no other key. -/
theorem claim6_input_only_when_missing (args : Args) (n p : String)
    (inputs : List String) :
    (argMissing args n = false →
      set_arg_from_input args n p inputs = (args, inputs, []))
    ∧ (argMissing args n = true →
      List.lookup n (set_arg_from_input args n p inputs).1 =
          some (PyVal.str (inputs.headD "")) ∧
      (∀ k, k ≠ n → List.lookup k (set_arg_from_input args n p inputs).1 =
          List.lookup k args) ∧
      (set_arg_from_input args n p inputs).2.2 =
        [Event.inputPrompt p (inputs.headD "")]) := by
  constructor
  · intro h
    unfold set_arg_from_input
    rw [h]
    simp
  · intro h
    unfold set_arg_from_input
    rw [if_pos h]
    exact ⟨lookup_setKey_self _ _ _,
      fun k hk => lookup_setKey_ne _ _ _ _ hk, rfl⟩

theorem claim6_witness :
    (set_arg_from_input [("url", PyVal.str "u")] "url" weaviateUrlPrompt
        ["typed"] = ([("url", PyVal.str "u")], ["typed"], []))
    ∧ (List.lookup "url"
          (set_arg_from_input [("url", PyVal.none)] "url" weaviateUrlPrompt
            ["typed"]).1 = some (PyVal.str (["typed"].headD "")) ∧
        (∀ k, k ≠ "url" → List.lookup k
            (set_arg_from_input [("url", PyVal.none)] "url" weaviateUrlPrompt
              ["typed"]).1 = List.lookup k [("url", PyVal.none)]) ∧
        (set_arg_from_input [("url", PyVal.none)] "url" weaviateUrlPrompt
            ["typed"]).2.2 =
          [Event.inputPrompt weaviateUrlPrompt (["typed"].headD "")]) :=
  ⟨(claim6_input_only_when_missing [("url", PyVal.str "u")] "url"
      weaviateUrlPrompt ["typed"]).1 (by decide),
   (claim6_input_only_when_missing [("url", PyVal.none)] "url"
      weaviateUrlPrompt ["typed"]).2 (by decide)⟩

/-- C9: when the designated environment variable is set,
`set_arg_from_password` stores its value even over an existing non-`None`
argument value, and never prompts: the environment always wins. -/
theorem claim9_env_overwrites_existing (env : String → Option String)
    (args : Args) (n p e : String) (inputs : List String) (v : String)
    (h : env e = some v) :
    List.lookup n (set_arg_from_password env args n p e inputs).1 =
        some (PyVal.str v) ∧
    (set_arg_from_password env args n p e inputs).2.2 = [] := by
  unfold set_arg_from_password
  rw [h]
  exact ⟨lookup_setKey_self _ _ _, rfl⟩

theorem claim9_witness :
    List.lookup "pinecone_api_key"
        (set_arg_from_password w0.env
          [("pinecone_api_key", PyVal.str "explicit")] "pinecone_api_key"
          pineconeKeyPrompt "PINECONE_API_KEY" []).1 =
      some (PyVal.str "sekret") ∧
    (set_arg_from_password w0.env
        [("pinecone_api_key", PyVal.str "explicit")] "pinecone_api_key"
        pineconeKeyPrompt "PINECONE_API_KEY" []).2.2 = [] :=
  claim9_env_overwrites_existing w0.env
    [("pinecone_api_key", PyVal.str "explicit")] "pinecone_api_key"
    pineconeKeyPrompt "PINECONE_API_KEY" [] "sekret" rfl

/-! ### The argument parser built in `main`

The script builds an argparse parser with one global option
(`-m`/`--model_name`, default `"text-embedding-ada-002"`), three
subcommands, and per-subcommand options that each take one value.  The
model below mirrors argparse's behaviour on the constructed parser for
plain `--opt value` token sequences: an option consumes the next token as
its value (a token that itself looks like an option is rejected, as
argparse does), an unknown option or subcommand is an error, and the
pinecone `-i`/`--index` option defaults to `"all"` while every other
subcommand option defaults to Python `None`.  The weaviate
`-i`/`--include_crossrefs` option was declared with `type=bool`, so argparse
stores `bool(value)`: `True` for every non-empty value string, `False` for
the empty string. -/

/-- argparse's test that a token looks like an option: it starts with a
dash (`str.startswith('-')` on the underlying characters). -/
def looksLikeOpt (s : String) : Bool :=
  match s.data with
  | [] => false
  | c :: _ => c = Char.ofNat 45

/-- Dispatch on the first positional token: a known subcommand keeps the
remaining tokens for its subparser, anything else is an argparse error. -/
def subOrErr (t : String) (rest : List String) (m : String) :
    Except String (String × Option (String × List String)) :=
  if t = "pinecone" ∨ t = "weaviate" ∨ t = "qdrant" then
    Except.ok (m, some (t, rest))
  else if looksLikeOpt t then
    Except.error ("unrecognized arguments: " ++ t)
  else
    Except.error ("invalid choice: " ++ t)

/-- Scan the global option section: consume `-m`/`--model_name` pairs until
a subcommand (returned with its remaining tokens) or the end of the
command line (no subcommand chosen). -/
def scanMain : List String → String →
    Except String (String × Option (String × List String))
  | [], m => Except.ok (m, Option.none)
  | [t], m =>
    if t = "-m" ∨ t = "--model_name" then
      Except.error "argument -m/--model_name: expected one argument"
    else
      subOrErr t [] m
  | t :: v :: rest, m =>
    if t = "-m" ∨ t = "--model_name" then
      if looksLikeOpt v then
        Except.error "argument -m/--model_name: expected one argument"
      else
        scanMain rest v
    else
      subOrErr t (v :: rest) m

/-- Options of the `pinecone` subparser: `-e`/`--environment` and
`-i`/`--index`. -/
def parsePineconeOpts : List String → Option String → Option String →
    Except String (Option String × Option String)
  | [], e, i => Except.ok (e, i)
  | [t], e, i =>
    if t = "-e" ∨ t = "--environment" ∨ t = "-i" ∨ t = "--index" then
      Except.error ("argument " ++ t ++ ": expected one argument")
    else
      Except.error ("unrecognized arguments: " ++ t)
  | t :: v :: rest, e, i =>
    if t = "-e" ∨ t = "--environment" then
      if looksLikeOpt v then
        Except.error ("argument " ++ t ++ ": expected one argument")
      else
        parsePineconeOpts rest (some v) i
    else if t = "-i" ∨ t = "--index" then
      if looksLikeOpt v then
        Except.error ("argument " ++ t ++ ": expected one argument")
      else
        parsePineconeOpts rest e (some v)
    else
      Except.error ("unrecognized arguments: " ++ t)

/-- Options of the `weaviate` subparser: `-u`/`--url`, `-c`/`--class_name`
and `-i`/`--include_crossrefs`. -/
def parseWeaviateOpts : List String → Option String → Option String →
    Option String →
    Except String (Option String × Option String × Option String)
  | [], u, c, x => Except.ok (u, c, x)
  | [t], u, c, x =>
    if t = "-u" ∨ t = "--url" ∨ t = "-c" ∨ t = "--class_name" ∨
        t = "-i" ∨ t = "--include_crossrefs" then
      Except.error ("argument " ++ t ++ ": expected one argument")
    else
      Except.error ("unrecognized arguments: " ++ t)
  | t :: v :: rest, u, c, x =>
    if t = "-u" ∨ t = "--url" then
      if looksLikeOpt v then
        Except.error ("argument " ++ t ++ ": expected one argument")
      else
        parseWeaviateOpts rest (some v) c x
    else if t = "-c" ∨ t = "--class_name" then
      if looksLikeOpt v then
        Except.error ("argument " ++ t ++ ": expected one argument")
      else
        parseWeaviateOpts rest u (some v) x
    else if t = "-i" ∨ t = "--include_crossrefs" then
      if looksLikeOpt v then
        Except.error ("argument " ++ t ++ ": expected one argument")
      else
        parseWeaviateOpts rest u c (some v)
    else
      Except.error ("unrecognized arguments: " ++ t)

/-- Options of the `qdrant` subparser: `-u`/`--url` and
`-c`/`--collection`. -/
def parseQdrantOpts : List String → Option String → Option String →
    Except String (Option String × Option String)
  | [], u, c => Except.ok (u, c)
  | [t], u, c =>
    if t = "-u" ∨ t = "--url" ∨ t = "-c" ∨ t = "--collection" then
      Except.error ("argument " ++ t ++ ": expected one argument")
    else
      Except.error ("unrecognized arguments: " ++ t)
  | t :: v :: rest, u, c =>
    if t = "-u" ∨ t = "--url" then
      if looksLikeOpt v then
        Except.error ("argument " ++ t ++ ": expected one argument")
      else
        parseQdrantOpts rest (some v) c
    else if t = "-c" ∨ t = "--collection" then
      if looksLikeOpt v then
        Except.error ("argument " ++ t ++ ": expected one argument")
      else
        parseQdrantOpts rest u (some v)
    else
      Except.error ("unrecognized arguments: " ++ t)

/-- An argparse value that may be missing: `None` when absent. -/
def optVal : Option String → PyVal
  | Option.none => PyVal.none
  | some s => PyVal.str s

/-- `vars(parser.parse_args(argv))` for the parser `main` builds. -/
def parse_args (argv : List String) : Except String Args :=
  match scanMain argv "text-embedding-ada-002" with
  | Except.error e => Except.error e
  | Except.ok (m, Option.none) =>
    Except.ok [("model_name", PyVal.str m), ("vector_database", PyVal.none)]
  | Except.ok (m, some (sub, rest)) =>
    if sub = "pinecone" then
      match parsePineconeOpts rest Option.none Option.none with
      | Except.error e => Except.error e
      | Except.ok (e, i) =>
        Except.ok [("model_name", PyVal.str m),
          ("vector_database", PyVal.str "pinecone"),
          ("environment", optVal e),
          ("index", PyVal.str (i.getD "all"))]
    else if sub = "weaviate" then
      match parseWeaviateOpts rest Option.none Option.none Option.none with
      | Except.error e => Except.error e
      | Except.ok (u, c, x) =>
        Except.ok [("model_name", PyVal.str m),
          ("vector_database", PyVal.str "weaviate"),
          ("url", optVal u),
          ("class_name", optVal c),
          ("include_crossrefs",
            match x with
            | Option.none => PyVal.none
            | some s => PyVal.bool (decide (s ≠ "")))]
    else
      match parseQdrantOpts rest Option.none Option.none with
      | Except.error e => Except.error e
      | Except.ok (u, c) =>
        Except.ok [("model_name", PyVal.str m),
          ("vector_database", PyVal.str "qdrant"),
          ("url", optVal u),
          ("collection", optVal c)]

/-- `main()`: parse, dispatch on `args["vector_database"]`, print
"Export completed." after a branch returns; on an unknown value, print an
error, prompt for a new name, append `--vector_database <name>` to
`sys.argv` and call `main()` again (the appended recursion depth is bounded
by `fuel`; an argparse error aborts the process before any export work, so
it contributes no events). -/
def run_main : Nat → World → List String → List String → List Event × Outcome
  | 0, _, _, _ => ([], Outcome.outOfFuel)
  | Nat.succ fuel, w, argv, inputs =>
    match parse_args argv with
    | Except.error e => ([], Outcome.parseError e)
    | Except.ok args =>
      if List.lookup "vector_database" args = some (PyVal.str "pinecone") then
        ((export_pinecone w args inputs).2.2 ++
          [Event.printStr "Export completed."], Outcome.success)
      else if List.lookup "vector_database" args = some (PyVal.str "weaviate") then
        ((export_weaviate w args inputs).2.2 ++
          [Event.printStr "Export completed."], Outcome.success)
      else if List.lookup "vector_database" args = some (PyVal.str "qdrant") then
        ((export_qdrant w args inputs).2.2 ++
          [Event.printStr "Export completed."], Outcome.success)
      else
        let resp := inputs.headD ""
        let inner := run_main fuel w (argv ++ ["--vector_database", resp])
          inputs.tail
        match inner.2 with
        | Outcome.success =>
          ((Event.printStr "Invalid vector database" ::
              Event.inputPrompt vdbPrompt resp :: inner.1) ++
            [Event.printStr "Export completed."], Outcome.success)
        | o =>
          (Event.printStr "Invalid vector database" ::
            Event.inputPrompt vdbPrompt resp :: inner.1, o)

/-! ### Claims about `main` -/

/-- C5: whenever an invocation of `main` ends successfully, the last thing
it emitted is the line "Export completed." -- this holds on the success
path of every dispatch branch. -/
theorem claim5_success_ends_with_completed (fuel : Nat) (w : World)
    (argv inputs : List String) (events : List Event)
    (h : run_main fuel w argv inputs = (events, Outcome.success)) :
    events.getLast? = some (Event.printStr "Export completed.") := by
  cases fuel with
  | zero =>
    unfold run_main at h
    injection h with h1 h2
    exact Outcome.noConfusion h2
  | succ fuel =>
    unfold run_main at h
    cases hp : parse_args argv with
    | error e =>
      rw [hp] at h
      injection h with h1 h2
      exact Outcome.noConfusion h2
    | ok args =>
      rw [hp] at h
      dsimp only at h
      by_cases h1 : List.lookup "vector_database" args = some (PyVal.str "pinecone")
      · rw [if_pos h1] at h
        injection h with he ho
        rw [← he]
        exact List.getLast?_concat _
      · rw [if_neg h1] at h
        by_cases h2 : List.lookup "vector_database" args = some (PyVal.str "weaviate")
        · rw [if_pos h2] at h
          injection h with he ho
          rw [← he]
          exact List.getLast?_concat _
        · rw [if_neg h2] at h
          by_cases h3 : List.lookup "vector_database" args = some (PyVal.str "qdrant")
          · rw [if_pos h3] at h
            injection h with he ho
            rw [← he]
            exact List.getLast?_concat _
          · rw [if_neg h3] at h
            cases ho : (run_main fuel w
                (argv ++ ["--vector_database", inputs.headD ""]) inputs.tail).2 with
            | success =>
              rw [ho] at h
              injection h with he h2
              rw [← he]
              exact List.getLast?_concat _
            | parseError e =>
              rw [ho] at h
              injection h with he h2
              exact Outcome.noConfusion h2
            | outOfFuel =>
              rw [ho] at h
              injection h with he h2
              exact Outcome.noConfusion h2

theorem claim5_witness :
    List.getLast? [Event.getDataQdrant (PyVal.str "c1"),
        Event.printStr "Export completed."] =
      some (Event.printStr "Export completed.") :=
  claim5_success_ends_with_completed 1 w0 ["qdrant", "-u", "http://x", "-c", "c1"]
    [] [Event.getDataQdrant (PyVal.str "c1"),
      Event.printStr "Export completed."] rfl

/-- C2 fails on the code: invoking the weaviate subcommand exactly as the
script's own docstring example shows (`-i Y`, requesting cross-reference
inclusion) drives `get_data` with `include_crossrefs = False`, because
argparse's `type=bool` turns `"Y"` into the boolean `True`, which the
script then compares against the string `"Y"`.  The run below evaluates
the whole program on that command line. -/
theorem claim2_crossref_flag_yields_false :
    run_main 1 w0
        ["weaviate", "-u", "http://localhost:8080", "-c", "my_class", "-i", "Y"]
        [] =
      ([Event.getDataWeaviate (PyVal.str "my_class") (PyVal.bool false),
        Event.printStr "Export completed."], Outcome.success) := rfl

theorem subOrErr_ne_ok_none (t : String) (r : List String) (m m2 : String) :
    subOrErr t r m ≠ Except.ok (m2, Option.none) := by
  unfold subOrErr
  by_cases hs : t = "pinecone" ∨ t = "weaviate" ∨ t = "qdrant"
  · rw [if_pos hs]
    intro h
    injection h with h1
    injection h1 with hm hn
    exact Option.noConfusion hn
  · rw [if_neg hs]
    by_cases hd : looksLikeOpt t = true
    · rw [if_pos hd]
      exact fun h => Except.noConfusion h
    · rw [if_neg hd]
      exact fun h => Except.noConfusion h

theorem scanMain_nil (m : String) :
    scanMain [] m = Except.ok (m, Option.none) := rfl

theorem scanMain_one (t m : String) :
    scanMain [t] m =
      if t = "-m" ∨ t = "--model_name" then
        Except.error "argument -m/--model_name: expected one argument"
      else
        subOrErr t [] m := rfl

theorem scanMain_cons2 (t v : String) (rest : List String) (m : String) :
    scanMain (t :: v :: rest) m =
      if t = "-m" ∨ t = "--model_name" then
        if looksLikeOpt v = true then
          Except.error "argument -m/--model_name: expected one argument"
        else
          scanMain rest v
      else
        subOrErr t (v :: rest) m := rfl

theorem scanMain_append : ∀ (toks : List String) (m m2 : String),
    scanMain toks m = Except.ok (m2, Option.none) →
    ∀ ext, scanMain (toks ++ ext) m = scanMain ext m2
  | [], m, m2, h, ext => by
    rw [scanMain_nil] at h
    injection h with h1
    injection h1 with hm hn
    rw [List.nil_append, hm]
  | [t], m, m2, h, ext => by
    rw [scanMain_one] at h
    by_cases ht : t = "-m" ∨ t = "--model_name"
    · rw [if_pos ht] at h
      exact absurd h (fun hc => Except.noConfusion hc)
    · rw [if_neg ht] at h
      exact absurd h (subOrErr_ne_ok_none t [] m m2)
  | t :: v :: rest, m, m2, h, ext => by
    rw [scanMain_cons2] at h
    by_cases ht : t = "-m" ∨ t = "--model_name"
    · rw [if_pos ht] at h
      by_cases hv2 : looksLikeOpt v = true
      · rw [if_pos hv2] at h
        exact absurd h (fun hc => Except.noConfusion hc)
      · rw [if_neg hv2] at h
        have ih := scanMain_append rest v m2 h ext
        show scanMain (t :: v :: (rest ++ ext)) m = scanMain ext m2
        rw [scanMain_cons2, if_pos ht, if_neg hv2]
        exact ih
    · rw [if_neg ht] at h
      exact absurd h (subOrErr_ne_ok_none t (v :: rest) m m2)

theorem parse_args_no_sub (argv : List String) (args : Args)
    (hp : parse_args argv = Except.ok args)
    (hv : List.lookup "vector_database" args = some PyVal.none) :
    ∃ m2, scanMain argv "text-embedding-ada-002" =
      Except.ok (m2, Option.none) := by
  unfold parse_args at hp
  cases hs : scanMain argv "text-embedding-ada-002" with
  | error e =>
    rw [hs] at hp
    exact Except.noConfusion hp
  | ok pr =>
    obtain ⟨m, osub⟩ := pr
    cases osub with
    | none => exact ⟨m, rfl⟩
    | some sub =>
      obtain ⟨s, rest⟩ := sub
      rw [hs] at hp
      dsimp only at hp
      exfalso
      by_cases h1 : s = "pinecone"
      · rw [if_pos h1] at hp
        cases hpp : parsePineconeOpts rest Option.none Option.none with
        | error e =>
          rw [hpp] at hp
          exact Except.noConfusion hp
        | ok pr2 =>
          obtain ⟨e, i⟩ := pr2
          rw [hpp] at hp
          dsimp only at hp
          injection hp with h2
          rw [← h2] at hv
          simp [List.lookup] at hv
      · rw [if_neg h1] at hp
        by_cases h2 : s = "weaviate"
        · rw [if_pos h2] at hp
          cases hpp : parseWeaviateOpts rest Option.none Option.none Option.none with
          | error e =>
            rw [hpp] at hp
            exact Except.noConfusion hp
          | ok pr2 =>
            obtain ⟨u, c, x⟩ := pr2
            rw [hpp] at hp
            dsimp only at hp
            injection hp with h3
            rw [← h3] at hv
            simp [List.lookup] at hv
        · rw [if_neg h2] at hp
          cases hpp : parseQdrantOpts rest Option.none Option.none with
          | error e =>
            rw [hpp] at hp
            exact Except.noConfusion hp
          | ok pr2 =>
            obtain ⟨u, c⟩ := pr2
            rw [hpp] at hp
            dsimp only at hp
            injection hp with h3
            rw [← h3] at hv
            simp [List.lookup] at hv

theorem parse_ext_error (argv : List String) (m2 r : String)
    (hs : scanMain argv "text-embedding-ada-002" =
      Except.ok (m2, Option.none)) :
    parse_args (argv ++ ["--vector_database", r]) =
      Except.error ("unrecognized arguments: --vector_database") := by
  unfold parse_args
  rw [scanMain_append argv _ _ hs ["--vector_database", r]]
  have h1 : scanMain ["--vector_database", r] m2 =
      Except.error ("unrecognized arguments: --vector_database") := by
    unfold scanMain
    rw [if_neg (by decide : ¬("--vector_database" = "-m" ∨
      "--vector_database" = "--model_name"))]
    unfold subOrErr
    rw [if_neg (by decide : ¬("--vector_database" = "pinecone" ∨
      "--vector_database" = "weaviate" ∨ "--vector_database" = "qdrant"))]
    rw [if_pos (by decide : looksLikeOpt "--vector_database" = true)]
    rfl
  rw [h1]

/-- C3 fails on the code: when no backend subcommand was given, `main`
does re-prompt for a backend name, but the retry appends
`--vector_database <name>` to `sys.argv` -- an option no parser defines --
so the recursive `main()` always aborts with an argparse
unrecognized-arguments error, whatever name the user enters.  No entered
name, valid or not, can lead to an export run. -/
theorem claim3_retry_never_exports (fuel : Nat) (w : World)
    (argv inputs : List String) (args : Args)
    (hp : parse_args argv = Except.ok args)
    (hv : List.lookup "vector_database" args = some PyVal.none) :
    (run_main fuel w argv inputs).2 ≠ Outcome.success := by
  obtain ⟨m2, hs⟩ := parse_args_no_sub argv args hp hv
  cases fuel with
  | zero =>
    unfold run_main
    exact fun hc => Outcome.noConfusion hc
  | succ fuel =>
    unfold run_main
    rw [hp]
    dsimp only
    have hv1 : ¬ List.lookup "vector_database" args = some (PyVal.str "pinecone") := by
      rw [hv]
      exact fun hc => PyVal.noConfusion (Option.some.inj hc)
    have hv2 : ¬ List.lookup "vector_database" args = some (PyVal.str "weaviate") := by
      rw [hv]
      exact fun hc => PyVal.noConfusion (Option.some.inj hc)
    have hv3 : ¬ List.lookup "vector_database" args = some (PyVal.str "qdrant") := by
      rw [hv]
      exact fun hc => PyVal.noConfusion (Option.some.inj hc)
    rw [if_neg hv1, if_neg hv2, if_neg hv3]
    cases fuel with
    | zero =>
      have hinner : run_main 0 w
          (argv ++ ["--vector_database", inputs.headD ""]) inputs.tail =
          ([], Outcome.outOfFuel) := rfl
      rw [hinner]
      exact fun hc => Outcome.noConfusion hc
    | succ fuel2 =>
      have hinner : run_main (Nat.succ fuel2) w
          (argv ++ ["--vector_database", inputs.headD ""]) inputs.tail =
          ([], Outcome.parseError ("unrecognized arguments: --vector_database")) := by
        unfold run_main
        rw [parse_ext_error argv m2 (inputs.headD "") hs]
      rw [hinner]
      exact fun hc => Outcome.noConfusion hc

theorem claim3_witness :
    (run_main 5 w0 [] ["pinecone"]).2 ≠ Outcome.success :=
  claim3_retry_never_exports 5 w0 [] ["pinecone"]
    [("model_name", PyVal.str "text-embedding-ada-002"),
     ("vector_database", PyVal.none)] rfl rfl

theorem subOrErr_ok (t : String) (r : List String) (m m2 s : String)
    (rest : List String)
    (h : subOrErr t r m = Except.ok (m2, some (s, rest))) :
    m2 = m ∧ s = t ∧ rest = r := by
  unfold subOrErr at h
  by_cases hs : t = "pinecone" ∨ t = "weaviate" ∨ t = "qdrant"
  · rw [if_pos hs] at h
    injection h with h1
    injection h1 with hm ho
    injection ho with h2
    injection h2 with ht hr
    exact ⟨hm.symm, ht.symm, hr.symm⟩
  · rw [if_neg hs] at h
    by_cases hd : looksLikeOpt t = true
    · rw [if_pos hd] at h
      exact absurd h (fun hc => Except.noConfusion hc)
    · rw [if_neg hd] at h
      exact absurd h (fun hc => Except.noConfusion hc)

theorem scanMain_rest_mem : ∀ (toks : List String) (m m2 s : String)
    (rest : List String),
    scanMain toks m = Except.ok (m2, some (s, rest)) →
    ∀ t, t ∈ rest → t ∈ toks
  | [], m, m2, s, rest, h, t, ht => by
    rw [scanMain_nil] at h
    injection h with h1
    injection h1 with hm ho
    exact absurd ho (fun hc => Option.noConfusion hc)
  | [u], m, m2, s, rest, h, t, ht => by
    rw [scanMain_one] at h
    by_cases hu : u = "-m" ∨ u = "--model_name"
    · rw [if_pos hu] at h
      exact absurd h (fun hc => Except.noConfusion hc)
    · rw [if_neg hu] at h
      obtain ⟨hm, hs, hr⟩ := subOrErr_ok u [] m m2 s rest h
      rw [hr] at ht
      exact absurd ht (List.not_mem_nil t)
  | u :: v :: rest2, m, m2, s, rest, h, t, ht => by
    rw [scanMain_cons2] at h
    by_cases hu : u = "-m" ∨ u = "--model_name"
    · rw [if_pos hu] at h
      by_cases hv : looksLikeOpt v = true
      · rw [if_pos hv] at h
        exact absurd h (fun hc => Except.noConfusion hc)
      · rw [if_neg hv] at h
        have ih := scanMain_rest_mem rest2 v m2 s rest h t ht
        exact List.mem_cons_of_mem u (List.mem_cons_of_mem v ih)
    · rw [if_neg hu] at h
      obtain ⟨hm, hs, hr⟩ := subOrErr_ok u (v :: rest2) m m2 s rest h
      rw [hr] at ht
      exact List.mem_cons_of_mem u ht

theorem ppo_nil (e i : Option String) :
    parsePineconeOpts [] e i = Except.ok (e, i) := rfl

theorem ppo_one (t : String) (e i : Option String) :
    parsePineconeOpts [t] e i =
      if t = "-e" ∨ t = "--environment" ∨ t = "-i" ∨ t = "--index" then
        Except.error ("argument " ++ t ++ ": expected one argument")
      else
        Except.error ("unrecognized arguments: " ++ t) := rfl

theorem ppo_cons2 (t v : String) (rest : List String) (e i : Option String) :
    parsePineconeOpts (t :: v :: rest) e i =
      if t = "-e" ∨ t = "--environment" then
        if looksLikeOpt v = true then
          Except.error ("argument " ++ t ++ ": expected one argument")
        else
          parsePineconeOpts rest (some v) i
      else if t = "-i" ∨ t = "--index" then
        if looksLikeOpt v = true then
          Except.error ("argument " ++ t ++ ": expected one argument")
        else
          parsePineconeOpts rest e (some v)
      else
        Except.error ("unrecognized arguments: " ++ t) := rfl

theorem ppo_no_index : ∀ (rest : List String) (e i : Option String),
    "-i" ∉ rest → "--index" ∉ rest →
    ∀ e2 i2, parsePineconeOpts rest e i = Except.ok (e2, i2) → i2 = i
  | [], e, i, h1, h2, e2, i2, h => by
    rw [ppo_nil] at h
    injection h with hp
    injection hp with he hi
    exact hi.symm
  | [t], e, i, h1, h2, e2, i2, h => by
    rw [ppo_one] at h
    by_cases ht : t = "-e" ∨ t = "--environment" ∨ t = "-i" ∨ t = "--index"
    · rw [if_pos ht] at h
      exact absurd h (fun hc => Except.noConfusion hc)
    · rw [if_neg ht] at h
      exact absurd h (fun hc => Except.noConfusion hc)
  | t :: v :: rest, e, i, h1, h2, e2, i2, h => by
    rw [ppo_cons2] at h
    have ht1 : t ≠ "-i" := by
      intro hc
      exact h1 (by rw [← hc]; exact List.mem_cons_self _ _)
    have ht2 : t ≠ "--index" := by
      intro hc
      exact h2 (by rw [← hc]; exact List.mem_cons_self _ _)
    have h1r : "-i" ∉ rest :=
      fun hm => h1 (List.mem_cons_of_mem _ (List.mem_cons_of_mem _ hm))
    have h2r : "--index" ∉ rest :=
      fun hm => h2 (List.mem_cons_of_mem _ (List.mem_cons_of_mem _ hm))
    by_cases he : t = "-e" ∨ t = "--environment"
    · rw [if_pos he] at h
      by_cases hv : looksLikeOpt v = true
      · rw [if_pos hv] at h
        exact absurd h (fun hc => Except.noConfusion hc)
      · rw [if_neg hv] at h
        exact ppo_no_index rest (some v) i h1r h2r e2 i2 h
    · rw [if_neg he] at h
      by_cases hi : t = "-i" ∨ t = "--index"
      · cases hi with
        | inl hc => exact absurd hc ht1
        | inr hc => exact absurd hc ht2
      · rw [if_neg hi] at h
        exact absurd h (fun hc => Except.noConfusion hc)

theorem parse_args_pinecone (argv : List String) (args : Args)
    (hp : parse_args argv = Except.ok args)
    (hv : List.lookup "vector_database" args = some (PyVal.str "pinecone")) :
    ∃ m rest e i,
      scanMain argv "text-embedding-ada-002" =
        Except.ok (m, some ("pinecone", rest)) ∧
      parsePineconeOpts rest Option.none Option.none = Except.ok (e, i) ∧
      args = [("model_name", PyVal.str m),
        ("vector_database", PyVal.str "pinecone"),
        ("environment", optVal e),
        ("index", PyVal.str (i.getD "all"))] := by
  unfold parse_args at hp
  cases hs : scanMain argv "text-embedding-ada-002" with
  | error e =>
    rw [hs] at hp
    exact Except.noConfusion hp
  | ok pr =>
    obtain ⟨m, osub⟩ := pr
    cases osub with
    | none =>
      rw [hs] at hp
      dsimp only at hp
      injection hp with h1
      rw [← h1] at hv
      simp [List.lookup] at hv
    | some sub =>
      obtain ⟨s, rest⟩ := sub
      rw [hs] at hp
      dsimp only at hp
      by_cases h1 : s = "pinecone"
      · subst h1
        rw [if_pos rfl] at hp
        cases hpp : parsePineconeOpts rest Option.none Option.none with
        | error e2 =>
          rw [hpp] at hp
          exact Except.noConfusion hp
        | ok pr2 =>
          obtain ⟨e, i⟩ := pr2
          rw [hpp] at hp
          dsimp only at hp
          injection hp with h2
          exact ⟨m, rest, e, i, rfl, hpp, h2.symm⟩
      · rw [if_neg h1] at hp
        exfalso
        by_cases h2 : s = "weaviate"
        · rw [if_pos h2] at hp
          cases hpp : parseWeaviateOpts rest Option.none Option.none Option.none with
          | error e2 =>
            rw [hpp] at hp
            exact Except.noConfusion hp
          | ok pr2 =>
            obtain ⟨u, c, x⟩ := pr2
            rw [hpp] at hp
            dsimp only at hp
            injection hp with h3
            rw [← h3] at hv
            simp [List.lookup] at hv
        · rw [if_neg h2] at hp
          cases hpp : parseQdrantOpts rest Option.none Option.none with
          | error e2 =>
            rw [hpp] at hp
            exact Except.noConfusion hp
          | ok pr2 =>
            obtain ⟨u, c⟩ := pr2
            rw [hpp] at hp
            dsimp only at hp
            injection hp with h3
            rw [← h3] at hv
            simp [List.lookup] at hv

theorem safi_events_cases (a : Args) (n p : String) (i : List String) :
    (set_arg_from_input a n p i).2.2 = [] ∨
    (set_arg_from_input a n p i).2.2 = [Event.inputPrompt p (i.headD "")] := by
  unfold set_arg_from_input
  split
  · exact Or.inr rfl
  · exact Or.inl rfl

theorem safi_no_other_prompt (a : Args) (n p q : String) (i : List String)
    (hpq : q ≠ p) (r : String) :
    Event.inputPrompt q r ∉ (set_arg_from_input a n p i).2.2 := by
  intro hm
  cases safi_events_cases a n p i with
  | inl h =>
    rw [h] at hm
    exact absurd hm (List.not_mem_nil _)
  | inr h =>
    rw [h] at hm
    have h2 := List.mem_singleton.mp hm
    injection h2 with hq hr
    exact hpq hq

theorem safi_events_of_not_missing (a : Args) (n p : String)
    (i : List String) (h : argMissing a n = false) :
    (set_arg_from_input a n p i).2.2 = [] := by
  unfold set_arg_from_input
  rw [h]
  rfl

theorem safi_fst_lookup_ne (a : Args) (n p : String) (i : List String)
    (k : String) (h : k ≠ n) :
    List.lookup k (set_arg_from_input a n p i).1 = List.lookup k a := by
  unfold set_arg_from_input
  split
  · exact lookup_setKey_ne a n k _ h
  · rfl

theorem safp_events_cases (env : String → Option String) (a : Args)
    (n p e : String) (i : List String) :
    (set_arg_from_password env a n p e i).2.2 = [] ∨
    (set_arg_from_password env a n p e i).2.2 =
      [Event.getpassPrompt p (i.headD "")] := by
  unfold set_arg_from_password
  cases env e with
  | some v => exact Or.inl rfl
  | none =>
    dsimp only
    split
    · exact Or.inr rfl
    · exact Or.inl rfl

theorem safp_no_input_prompt (env : String → Option String) (a : Args)
    (n p e : String) (i : List String) (q r : String) :
    Event.inputPrompt q r ∉ (set_arg_from_password env a n p e i).2.2 := by
  intro hm
  cases safp_events_cases env a n p e i with
  | inl h =>
    rw [h] at hm
    exact absurd hm (List.not_mem_nil _)
  | inr h =>
    rw [h] at hm
    exact Event.noConfusion (List.mem_singleton.mp hm)

/-- C8: a pinecone invocation that omits `-i`/`--index` parses to
`index = "all"` (argparse's declared default), and consequently
`export_pinecone` never shows the index prompt: the argument is never
`None`. -/
theorem claim8_index_default_all (w : World) (argv inputs : List String)
    (args : Args)
    (hp : parse_args argv = Except.ok args)
    (hv : List.lookup "vector_database" args = some (PyVal.str "pinecone"))
    (hi1 : "-i" ∉ argv) (hi2 : "--index" ∉ argv) :
    List.lookup "index" args = some (PyVal.str "all") ∧
    ∀ r, Event.inputPrompt pineconeIndexPrompt r ∉
      (export_pinecone w args inputs).2.2 := by
  obtain ⟨m, rest, e, i, hs, hpp, hargs⟩ := parse_args_pinecone argv args hp hv
  have hrest1 : "-i" ∉ rest :=
    fun hm => hi1 (scanMain_rest_mem argv _ _ _ _ hs _ hm)
  have hrest2 : "--index" ∉ rest :=
    fun hm => hi2 (scanMain_rest_mem argv _ _ _ _ hs _ hm)
  have hiz : i = Option.none :=
    ppo_no_index rest Option.none Option.none hrest1 hrest2 e i hpp
  subst hiz
  have hidx : List.lookup "index" args = some (PyVal.str "all") := by
    rw [hargs]
    simp [List.lookup, optVal]
  refine ⟨hidx, ?_⟩
  intro r hm
  unfold export_pinecone at hm
  dsimp only at hm
  rcases List.mem_append.mp hm with hm1 | hm2
  · unfold pinecone_setup at hm1
    dsimp only at hm1
    rcases List.mem_append.mp hm1 with hm3 | hm4
    · rcases List.mem_append.mp hm3 with hm5 | hm6
      · rcases List.mem_append.mp hm5 with hm7 | hm8
        · exact safi_no_other_prompt args "environment" pineconeEnvPrompt
            pineconeIndexPrompt inputs (by decide) r hm7
        · have hlook : List.lookup "index"
              (set_arg_from_input args "environment" pineconeEnvPrompt inputs).1 =
              some (PyVal.str "all") := by
            rw [safi_fst_lookup_ne args "environment" pineconeEnvPrompt inputs
              "index" (by decide)]
            exact hidx
          have hmiss : argMissing
              (set_arg_from_input args "environment" pineconeEnvPrompt inputs).1
              "index" = false :=
            argMissing_false_of_lookup _ _ _ (by decide) hlook
          rw [safi_events_of_not_missing _ _ pineconeIndexPrompt _ hmiss] at hm8
          exact absurd hm8 (List.not_mem_nil _)
      · exact safi_no_other_prompt _ "model_name" modelPrompt
          pineconeIndexPrompt _ (by decide) r hm6
    · exact safp_no_input_prompt w.env _ "pinecone_api_key" pineconeKeyPrompt
        "PINECONE_API_KEY" _ pineconeIndexPrompt r hm4
  · rcases List.mem_cons.mp hm2 with h | h
    · exact Event.noConfusion h
    · by_cases hc : List.lookup "index" (pinecone_setup w.env args inputs).1 =
          some (PyVal.str "all")
      · rw [if_pos hc] at h
        rcases List.mem_cons.mp h with h2 | h2
        · exact Event.noConfusion h2
        · obtain ⟨x, hx, hEq⟩ := List.mem_map.mp h2
          exact Event.noConfusion hEq
      · rw [if_neg hc] at h
        exact Event.noConfusion (List.mem_singleton.mp h)

/-- The args dict that `parse_args ["pinecone"]` produces. -/
def pineArgsParsed : Args :=
  [("model_name", PyVal.str "text-embedding-ada-002"),
   ("vector_database", PyVal.str "pinecone"),
   ("environment", PyVal.none),
   ("index", PyVal.str "all")]

theorem claim8_witness :
    List.lookup "index" pineArgsParsed = some (PyVal.str "all") ∧
    ∀ r, Event.inputPrompt pineconeIndexPrompt r ∉
      (export_pinecone w0 pineArgsParsed ["env1"]).2.2 :=
  claim8_index_default_all w0 ["pinecone"] ["env1"] pineArgsParsed rfl
    (by decide) (by decide) (by decide)

end ExportPy
